import Mathlib

/-!
Verification of the flow-ai deployment orchestrator.

The development shallowly embeds the Go sources of `cmd/deployer/deploy.go`
(the build / push / deploy pipeline) and, for the log-driven diagnostic
agent whose implementation file is absent from the sources, models the
classifier and fix selector from the specification.  External commands
(pack, docker, aws, kubectl) are modelled by their success/failure
outcomes; each pipeline function additionally returns the trace of the
external steps it executed, so ordering and short-circuiting claims can
be stated directly.
-/

/- ### String primitives mirroring the Go strings package -/

/-- ASCII lowercasing of one character, as Go strings.ToLower acts on ASCII text. -/
def lowerChar (c : Char) : Char :=
  if 65 ≤ c.toNat ∧ c.toNat ≤ 90 then Char.ofNat (c.toNat + 32) else c

/-- Lowercase a whole string character by character. -/
def lowerStr (s : String) : String := ⟨s.data.map lowerChar⟩

/-- startsWithSeg needle hay is true when needle is a leading segment of hay. -/
def startsWithSeg : List Char → List Char → Bool
  | [], _ => true
  | _ :: _, [] => false
  | a :: as, b :: bs => (a = b) && startsWithSeg as bs

/-- containsSeg needle hay is true when needle occurs contiguously in hay
(the semantics of Go strings.Contains). -/
def containsSeg (needle : List Char) : List Char → Bool
  | [] => needle.isEmpty
  | b :: bs => startsWithSeg needle (b :: bs) || containsSeg needle bs

/-- Go strings.Contains on strings. -/
def strContains (hay needle : String) : Bool := containsSeg needle.data hay.data

/-- Go strings.Split with a one-character separator; the result always has at
least one piece. -/
def splitChar (sep : Char) : List Char → List (List Char)
  | [] => [[]]
  | c :: cs =>
    let r := splitChar sep cs
    if c = sep then [] :: r
    else
      match r with
      | [] => [[c]]
      | h :: t => (c :: h) :: t

/- ### The deploy command pipeline (newDeployCmd RunE in deploy.go) -/

/-- Step outcomes and flag values of one flow deploy invocation: whether each
external action the command performs would succeed, and the flag values that
gate the optional steps.  Mirrors the control flow of newDeployCmd RunE. -/
structure DeployEnv where
  projectNameOk : Bool
  imageRefOk : Bool
  buildOk : Bool
  pushOk : Bool
  knApplyOk : Bool
  ecrPermOk : Bool
  dbHost : String
  dbAttachOk : Bool
  redisHost : String
  redisAttachOk : Bool
  secrets : List String
  secretsOk : Bool
  serverURL : String
  reportOk : Bool

/-- The observable result of one deploy run: its terminal outcome, the
warnings it printed, and whether the tracking report was posted. -/
structure RunResult where
  outcome : Except String Unit
  warnings : List String
  reported : Bool

/-- The deploy pipeline of newDeployCmd RunE in deploy.go: detect project,
generate image reference, build, push, apply the Knative service, configure
ECR pull permissions (failure downgraded to a warning), then the optional
database / Redis / secrets attachments (each failure returned as an error),
and finally the optional tracking report whose error is discarded. -/
def deployRun (e : DeployEnv) : RunResult :=
  if e.projectNameOk = false then ⟨.error "failed to detect project name", [], false⟩
  else if e.imageRefOk = false then ⟨.error "failed to generate image reference", [], false⟩
  else if e.buildOk = false then ⟨.error "build failed", [], false⟩
  else if e.pushOk = false then ⟨.error "push failed", [], false⟩
  else if e.knApplyOk = false then ⟨.error "deploy failed", [], false⟩
  else
    let warns : List String :=
      if e.ecrPermOk then [] else ["Warning: Failed to configure ECR pull permissions"]
    if e.dbHost ≠ "" ∧ e.dbAttachOk = false then ⟨.error "database attach failed", warns, false⟩
    else if e.redisHost ≠ "" ∧ e.redisAttachOk = false then ⟨.error "redis attach failed", warns, false⟩
    else if e.secrets ≠ [] ∧ e.secretsOk = false then ⟨.error "secrets creation failed", warns, false⟩
    else ⟨.ok (), warns, decide (e.serverURL ≠ "")⟩

/- ### The push stage (dockerPushWithECRLogin in deploy.go) -/

/-- One external step of the push stage, in the order the stage runs them. -/
inductive PushStep
  | sts
  | tagImage
  | getLoginPassword
  | dockerLogin
  | describeRepos
  | createRepo
  | dockerPush
deriving DecidableEq

/-- Outcomes of the external commands the push stage may run. -/
structure PushEnv where
  stsOk : Bool
  accountID : String
  tagOk : Bool
  getLoginOk : Bool
  loginOk : Bool
  repoExists : Bool
  createOk : Bool
  pushOk : Bool

/-- The tail of the push stage after the image reference is final: split the
reference, extract the repository name (indexing part 1, which panics when the
split has a single piece — modelled by a none result), then authenticate,
check or create the repository, and push.  pre is the trace accumulated so
far. -/
def pushAfterTag (imageRef : String) (e : PushEnv) (pre : List PushStep) :
    Option (Except String Unit) × List PushStep :=
  let parts := splitChar '/' imageRef.data
  if parts.length < 1 then (some (.error "invalid image"), pre)
  else
    match parts[1]? with
    | none => (none, pre)
    | some _seg =>
      if e.getLoginOk = false then
        (some (.error "failed to get ECR login password"), pre ++ [.getLoginPassword])
      else if e.loginOk = false then
        (some (.error "failed to login to ECR"), pre ++ [.getLoginPassword, .dockerLogin])
      else if e.repoExists = false then
        if e.createOk = false then
          (some (.error "failed to create ECR repository"),
            pre ++ [.getLoginPassword, .dockerLogin, .describeRepos, .createRepo])
        else if e.pushOk = false then
          (some (.error "failed to push image to ECR"),
            pre ++ [.getLoginPassword, .dockerLogin, .describeRepos, .createRepo, .dockerPush])
        else
          (some (.ok ()),
            pre ++ [.getLoginPassword, .dockerLogin, .describeRepos, .createRepo, .dockerPush])
      else if e.pushOk = false then
        (some (.error "failed to push image to ECR"),
          pre ++ [.getLoginPassword, .dockerLogin, .describeRepos, .dockerPush])
      else
        (some (.ok ()),
          pre ++ [.getLoginPassword, .dockerLogin, .describeRepos, .dockerPush])

/-- dockerPushWithECRLogin of deploy.go: resolve the account identity, re-tag
local image names for ECR, then run the authenticated push sequence.  The
first component is none when the Go code would panic, some outcome otherwise;
the second component is the ordered trace of external steps executed. -/
def dockerPushWithECRLogin (region imageRef : String) (e : PushEnv) :
    Option (Except String Unit) × List PushStep :=
  if e.stsOk = false then
    (some (.error "failed to get AWS account ID for ECR push"), [.sts])
  else if e.accountID = "" then
    (some (.error "AWS account ID is empty"), [.sts])
  else if strContains imageRef ".dkr.ecr." = false then
    let projectName : String := ⟨(splitChar ':' imageRef.data).headD []⟩
    let ecrImageRef : String :=
      e.accountID ++ ".dkr.ecr." ++ region ++ ".amazonaws.com/" ++ projectName ++ ":latest"
    if e.tagOk = false then
      (some (.error "failed to tag image for ECR"), [.sts, .tagImage])
    else
      pushAfterTag ecrImageRef e [.sts, .tagImage]
  else
    pushAfterTag imageRef e [.sts]

/- ### The build stage (buildApplication, buildWithDocker, createDockerfile) -/

/-- Language markers of the application source directory, as probed by
createDockerfile with os.Stat. -/
structure AppDir where
  hasPackageJson : Bool
  hasRequirementsTxt : Bool
  hasGoMod : Bool
deriving DecidableEq

/-- The Node.js Dockerfile template of createDockerfile. -/
def nodeDockerfile : String :=
  "FROM node:18-alpine\nWORKDIR /app\nCOPY package*.json ./\nRUN npm install --omit=dev\nCOPY . .\nEXPOSE 8080\nCMD [\"node\", \"server.js\"]"

/-- The Python Dockerfile template of createDockerfile. -/
def pythonDockerfile : String :=
  "FROM python:3.11-slim\nRUN apt-get update && apt-get install -y gcc && rm -rf /var/lib/apt/lists/*\nWORKDIR /app\nCOPY requirements.txt .\nRUN pip install --no-cache-dir -r requirements.txt\nCOPY . .\nEXPOSE 8080\nCMD [\"gunicorn\", \"--bind\", \"0.0.0.0:8080\", \"app:app\"]"

/-- The Go Dockerfile template of createDockerfile. -/
def goDockerfile : String :=
  "FROM golang:1.21-alpine AS builder\nWORKDIR /app\nCOPY go.mod ./\nRUN go mod download\nCOPY . .\nRUN go build -o main .\n\nFROM alpine:latest\nRUN apk add --no-cache ca-certificates\nWORKDIR /root/\nCOPY --from=builder /app/main .\nEXPOSE 8080\nCMD [\"./main\"]"

/-- The default placeholder Dockerfile of createDockerfile. -/
def defaultDockerfile : String :=
  "FROM alpine:latest\nWORKDIR /app\nCOPY . .\nEXPOSE 8080\nCMD [\"echo\", \"No specific buildpack detected, using default\"]"

/-- createDockerfile of deploy.go: select a Dockerfile template by the first
language marker found, checking package.json, then requirements.txt, then
go.mod, defaulting to the placeholder image. -/
def createDockerfile (dir : AppDir) : String :=
  if dir.hasPackageJson then nodeDockerfile
  else if dir.hasRequirementsTxt then pythonDockerfile
  else if dir.hasGoMod then goDockerfile
  else defaultDockerfile

/-- One external command invocation: program, arguments, and stdin payload. -/
structure Cmd where
  prog : String
  args : List String
  stdinData : String
deriving DecidableEq

/-- buildWithDocker of deploy.go: the docker build invocation it issues, with
the generated Dockerfile on stdin.  The envs parameter is accepted and unused,
as in the source. -/
def buildWithDocker (dir : AppDir) (appPath imageRef : String) (envs : List String) : Cmd :=
  { prog := "docker"
  , args := ["build", "--platform", "linux/amd64", "-t", imageRef, "-f", "-", appPath]
  , stdinData := createDockerfile dir }

/-- A build attempt made by buildApplication: a pack build with the fixed
builder image, or a fallback docker build. -/
inductive BuildAttempt
  | packBuild (builder : String)
  | dockerBuild (c : Cmd)
deriving DecidableEq

/-- Outcomes of the external tools the build stage may run. -/
structure BuildEnv where
  packFound : Bool
  packRunOk : Bool
  dockerOk : Bool

/-- Result of the fallback docker build. -/
def dockerOutcome (e : BuildEnv) : Except String Unit :=
  if e.dockerOk then .ok () else .error "docker build failed"

/-- buildApplication of deploy.go: when the pack CLI is not found, build with
docker directly; otherwise run pack and, if it fails, fall back to the docker
build.  Returns the stage outcome and the ordered list of attempts. -/
def buildApplication (e : BuildEnv) (dir : AppDir) (appPath imageRef : String)
    (envs : List String) : Except String Unit × List BuildAttempt :=
  if e.packFound = false then
    (dockerOutcome e, [.dockerBuild (buildWithDocker dir appPath imageRef envs)])
  else if e.packRunOk then
    (.ok (), [.packBuild "paketobuildpacks/builder:tiny"])
  else
    (dockerOutcome e,
      [.packBuild "paketobuildpacks/builder:tiny",
        .dockerBuild (buildWithDocker dir appPath imageRef envs)])

/- ### The deploy stage (newKnServiceYAML, knServiceApply) -/

/-- Fixed fragment of the Knative service template before the name. -/
def knTemplateA : String :=
  "apiVersion: serving.knative.dev/v1\nkind: Service\nmetadata:\n  name: "

/-- Fixed fragment between the name and the namespace. -/
def knTemplateB : String := "\n  namespace: "

/-- Fixed fragment between the namespace and the image, carrying the
autoscaling minScale annotation. -/
def knTemplateC : String :=
  "\nspec:\n  template:\n    metadata:\n      annotations:\n        autoscaling.knative.dev/minScale: \"1\"\n    spec:\n      containers:\n        - image: "

/-- Fixed fragment between the image and the container port. -/
def knTemplateD : String := "\n          ports:\n            - containerPort: "

/-- Fixed fragment after the container port. -/
def knTemplateE : String := "\n              name: http1\n"

/-- One rendered env entry of newKnServiceYAML. -/
def knEnvLine (kv : String × String) : String :=
  "          - name: " ++ kv.1 ++ "\n            value: \"" ++ kv.2 ++ "\""

/-- newKnServiceYAML of deploy.go: the rendered Knative service manifest.  The
Go env map is modelled as a list of key/value pairs; cpu and mem are accepted
and unused, as in the source template. -/
def newKnServiceYAML (name image ns cpu mem : String) (env : List (String × String))
    (port : Nat) : String :=
  let envLines := env.map knEnvLine
  let envBlock := if envLines.isEmpty then "" else "        env:\n" ++ String.intercalate "\n" envLines
  knTemplateA ++ name ++ knTemplateB ++ ns ++ knTemplateC ++ image ++ knTemplateD ++
    toString port ++ knTemplateE ++ envBlock ++ "\n"

/-- The kubectl invocation issued by knServiceApply: the apply verb with the
manifest on stdin, with the optional context flags prepended. -/
def knServiceApplyCmd (name image ns cpu mem : String) (env : List (String × String))
    (kubecontext : String) (port : Nat) : Cmd :=
  { prog := "kubectl"
  , args := (if kubecontext ≠ "" then ["--context", kubecontext] else []) ++ ["apply", "-f", "-"]
  , stdinData := newKnServiceYAML name image ns cpu mem env port }

/-- Does the cluster hold a service of this name? -/
def hasName (c : List (String × String)) (n : String) : Bool :=
  match c with
  | [] => false
  | p :: t => (p.1 = n) || hasName t n

/-- Modelled from the spec: the create-if-absent / update-if-present apply
semantics of the orchestration platform that kubectl apply provides; the
kubectl binary itself is an external collaborator, absent from the sources.
The cluster is a list of (service name, manifest) pairs. -/
def applyService (c : List (String × String)) (n y : String) : List (String × String) :=
  if hasName c n then
    c.map (fun p => if p.1 = n then (n, y) else p)
  else
    c ++ [(n, y)]

/-- knServiceApply of deploy.go acting on the modelled cluster state: render
the manifest and apply it idempotently under the service name. -/
def knServiceApply (c : List (String × String)) (name image ns cpu mem : String)
    (env : List (String × String)) (kubecontext : String) (port : Nat) :
    List (String × String) :=
  applyService c name (newKnServiceYAML name image ns cpu mem env port)

/- ### The diagnostic agent (classifier and fix selector) -/

/-- Modelled from the spec: a FixStrategy is a named remedy with a confidence
score in [0,1], a description and optional concrete commands (section 3); the
agent implementation file is absent from the sources. -/
structure FixStrategy where
  name : String
  description : String
  confidence : ℚ
  commands : List String

/-- Modelled from the spec: an ErrorPattern is a named matcher (a substring
tested against lowercased log text) with a severity tier and a category tag
(section 3); the agent implementation file is absent from the sources. -/
structure ErrorPattern where
  name : String
  trigger : String
  severity : String
  category : String

/-- Modelled from the spec: a DeploymentError holds the matching pattern and
the ordered candidate fix strategies (section 3). -/
structure DeploymentError where
  pattern : ErrorPattern
  suggestions : List FixStrategy

/-- Modelled from the spec: the registered fix strategies per error category
(confidence scores static per pattern); the table contents follow the
repository tests, which require a docker_fallback strategy of confidence at
least 0.8 for buildpack failures. -/
def fixStrategies (category : String) : List FixStrategy :=
  if category = "buildpack_failure" then
    [ ⟨"docker_fallback", "Fall back to a generated-Dockerfile docker build", 0.9,
        ["docker build --platform linux/amd64 -t IMAGE ."]⟩
    , ⟨"retry_pack", "Retry the pack build with a clean cache", 0.4, ["pack build IMAGE"]⟩ ]
  else if category = "ecr_auth_failed" then
    [⟨"ecr_auth_refresh", "Refresh the ECR login and retry", 0.8, ["aws ecr get-login-password"]⟩]
  else if category = "repository_not_found" then
    [⟨"create_repository", "Create the missing ECR repository", 0.8, ["aws ecr create-repository"]⟩]
  else if category = "revision_missing" then
    [⟨"restart_service", "Re-apply the Knative service", 0.6, ["kubectl apply -f service.yaml"]⟩]
  else if category = "image_pull_backoff" then
    [⟨"fix_pull_secret", "Configure ECR pull permissions", 0.7, ["kubectl create secret"]⟩]
  else if category = "dns_resolution_failed" then
    [⟨"check_dns", "Check cluster DNS configuration", 0.5, ["kubectl get svc -n kube-system"]⟩]
  else if category = "permission_denied" then
    [⟨"fix_iam", "Bind the required IAM permissions", 0.6, ["aws iam attach-role-policy"]⟩]
  else if category = "loadbalancer_pending" then
    [⟨"wait_loadbalancer", "Wait for the load balancer address", 0.5, ["kubectl get svc -w"]⟩]
  else []

/-- Modelled from the spec: the registered error patterns in priority order
(section 4.6); one case-insensitive substring trigger per contracted category,
the trigger phrases taken from the repository tests. -/
def errorPatterns : List ErrorPattern :=
  [ ⟨"buildpack_failure", "failed to build", "high", "buildpack_failure"⟩
  , ⟨"ecr_auth_failed", "authentication failed", "high", "ecr_auth_failed"⟩
  , ⟨"repository_not_found", "repository not found", "medium", "repository_not_found"⟩
  , ⟨"revision_missing", "revision missing", "medium", "revision_missing"⟩
  , ⟨"image_pull_backoff", "imagepullbackoff", "high", "image_pull_backoff"⟩
  , ⟨"dns_resolution_failed", "could not resolve host", "medium", "dns_resolution_failed"⟩
  , ⟨"permission_denied", "permission denied", "high", "permission_denied"⟩
  , ⟨"loadbalancer_pending", "loadbalancer pending", "low", "loadbalancer_pending"⟩ ]

/-- Modelled from the spec: detectError lowercase-normalizes one log line and
tests it against the registered patterns in priority order, returning the
first match (with its candidate strategies) or none (section 4.6). -/
def detectError (line : String) : Option DeploymentError :=
  let l := lowerStr line
  (errorPatterns.find? (fun p => strContains l p.trigger)).map
    (fun p => { pattern := p, suggestions := fixStrategies p.name })

/-- Left fold selecting the best-confidence strategy, keeping the earlier
entry on ties (stable ranking). -/
def pickBest (s : FixStrategy) (l : List FixStrategy) : FixStrategy :=
  l.foldl (fun best c => if best.confidence < c.confidence then c else best) s

/-- Modelled from the spec: selectBestFix returns none for a nil error or an
empty candidate list, and otherwise the top entry of the confidence ranking,
ties broken by registration order (section 4.7). -/
def selectBestFix : Option DeploymentError → Option FixStrategy
  | none => none
  | some err =>
    match err.suggestions with
    | [] => none
    | s :: rest => some (pickBest s rest)

/- ### Decidability and concrete inputs -/

instance : DecidableEq (Except String Unit) := fun a b =>
  match a, b with
  | .error x, .error y =>
    if h : x = y then isTrue (congrArg Except.error h)
    else isFalse (fun hc => h (Except.error.inj hc))
  | .ok x, .ok y => isTrue (by cases x; cases y; rfl)
  | .error _, .ok _ => isFalse (fun hc => Except.noConfusion hc)
  | .ok _, .error _ => isFalse (fun hc => Except.noConfusion hc)

/-- The value following the --platform flag in an argument list, if any. -/
def platformArg : List String → Option String
  | "--platform" :: v :: _ => some v
  | _ :: rest => platformArg rest
  | [] => none

/-- A deploy environment whose primary service apply succeeds and whose
requested database attachment fails; every other step succeeds and no other
optional step is requested. -/
def dbFailEnv : DeployEnv :=
  { projectNameOk := true, imageRefOk := true, buildOk := true, pushOk := true
  , knApplyOk := true, ecrPermOk := true, dbHost := "db.example.com", dbAttachOk := false
  , redisHost := "", redisAttachOk := true, secrets := [], secretsOk := true
  , serverURL := "", reportOk := true }

/-- A push environment in which every external command succeeds and the
target repository does not exist yet. -/
def pushAllOk : PushEnv :=
  { stsOk := true, accountID := "123456789012", tagOk := true, getLoginOk := true
  , loginOk := true, repoExists := false, createOk := true, pushOk := true }

/-- A push environment whose credential retrieval fails. -/
def pushNoLogin : PushEnv := { pushAllOk with getLoginOk := false }

/-- A build environment in which the pack CLI is not found and docker works. -/
def packMissingEnv : BuildEnv := { packFound := false, packRunOk := true, dockerOk := true }

/-- An application directory carrying only a Node manifest. -/
def nodeAppDir : AppDir :=
  { hasPackageJson := true, hasRequirementsTxt := false, hasGoMod := false }

/-- A pattern for errors outside the registered table. -/
def demoPattern : ErrorPattern := ⟨"unknown_error", "", "low", "unknown"⟩

/-- The candidate list with confidences 0.3, 0.9 and 0.6 named by the
selection claim. -/
def demoStrategies : List FixStrategy :=
  [ ⟨"low_fix", "third of the ranking", 0.3, []⟩
  , ⟨"best_fix", "top of the ranking", 0.9, []⟩
  , ⟨"mid_fix", "second of the ranking", 0.6, []⟩ ]

/-- A classified error carrying the demo candidate list. -/
def demoError : DeploymentError := ⟨demoPattern, demoStrategies⟩

/-- A classified error with an empty candidate list. -/
def emptyError : DeploymentError := ⟨demoPattern, []⟩

/- ### Helper lemmas -/

theorem splitChar_ne_nil (sep : Char) (l : List Char) : splitChar sep l ≠ [] := by
  cases l with
  | nil => simp [splitChar]
  | cons c cs =>
    simp only [splitChar]
    split
    · simp
    · split <;> simp

theorem splitChar_length_pos (sep : Char) (l : List Char) :
    0 < (splitChar sep l).length :=
  List.length_pos.mpr (splitChar_ne_nil sep l)

theorem length_splitChar_of_contains (sep : Char) (l : List Char)
    (h : containsSeg [sep] l = true) : 2 ≤ (splitChar sep l).length := by
  induction l with
  | nil => simp [containsSeg, List.isEmpty] at h
  | cons c cs ih =>
    simp only [containsSeg, startsWithSeg, Bool.or_eq_true, Bool.and_eq_true,
      decide_eq_true_eq] at h
    simp only [splitChar]
    by_cases hc : c = sep
    · rw [if_pos hc]
      have := splitChar_length_pos sep cs
      simp only [List.length_cons]
      omega
    · rw [if_neg hc]
      have hcs : containsSeg [sep] cs = true := by
        rcases h with ⟨h1, _⟩ | h2
        · exact absurd h1.symm hc
        · exact h2
      have h2 := ih hcs
      rcases hr : splitChar sep cs with _ | ⟨hh, tt⟩
      · exact absurd hr (splitChar_ne_nil sep cs)
      · rw [hr] at h2
        simpa using h2

theorem containsSeg_nil_needle (l : List Char) : containsSeg [] l = true := by
  cases l <;> simp [containsSeg, startsWithSeg, List.isEmpty]

theorem startsWithSeg_append (n h r : List Char)
    (hs : startsWithSeg n h = true) : startsWithSeg n (h ++ r) = true := by
  induction n generalizing h with
  | nil => simp [startsWithSeg]
  | cons a as ih =>
    cases h with
    | nil => simp [startsWithSeg] at hs
    | cons b bs =>
      simp only [startsWithSeg, Bool.and_eq_true] at hs
      simp only [List.cons_append, startsWithSeg, Bool.and_eq_true]
      exact ⟨hs.1, ih bs hs.2⟩

theorem containsSeg_append_left (n l r : List Char)
    (h : containsSeg n l = true) : containsSeg n (l ++ r) = true := by
  induction l with
  | nil =>
    simp only [containsSeg] at h
    have : n = [] := by simpa [List.isEmpty_iff] using h
    subst this
    exact containsSeg_nil_needle r
  | cons b bs ih =>
    simp only [containsSeg, Bool.or_eq_true] at h
    simp only [List.cons_append, containsSeg, Bool.or_eq_true]
    rcases h with h | h
    · exact Or.inl (startsWithSeg_append n (b :: bs) r h)
    · exact Or.inr (ih h)

theorem containsSeg_append_right (n l r : List Char)
    (h : containsSeg n r = true) : containsSeg n (l ++ r) = true := by
  induction l with
  | nil => simpa using h
  | cons b bs ih =>
    simp only [List.cons_append, containsSeg, Bool.or_eq_true]
    exact Or.inr ih

theorem pickBest_cons (s a : FixStrategy) (t : List FixStrategy) :
    pickBest s (a :: t) = pickBest (if s.confidence < a.confidence then a else s) t := rfl

theorem pickBest_mem (s : FixStrategy) (l : List FixStrategy) :
    pickBest s l ∈ s :: l := by
  induction l generalizing s with
  | nil => simp [pickBest]
  | cons a t ih =>
    rw [pickBest_cons]
    rcases List.mem_cons.mp (ih (if s.confidence < a.confidence then a else s)) with h | h
    · rw [h]
      split
      · exact List.mem_cons_of_mem _ (List.mem_cons_self a t)
      · exact List.mem_cons_self _ _
    · exact List.mem_cons_of_mem _ (List.mem_cons_of_mem a h)

theorem pickBest_le (s : FixStrategy) (l : List FixStrategy) :
    ∀ x ∈ s :: l, x.confidence ≤ (pickBest s l).confidence := by
  induction l generalizing s with
  | nil =>
    intro x hx
    simp only [List.mem_singleton] at hx
    subst hx
    exact le_refl _
  | cons a t ih =>
    intro x hx
    rw [pickBest_cons]
    have hs : s.confidence ≤ (if s.confidence < a.confidence then a else s).confidence := by
      split
      · exact le_of_lt (by assumption)
      · exact le_refl _
    have ha : a.confidence ≤ (if s.confidence < a.confidence then a else s).confidence := by
      split
      · exact le_refl _
      · exact le_of_not_lt (by assumption)
    have hself := ih (if s.confidence < a.confidence then a else s) _
      (List.mem_cons_self _ t)
    rcases List.mem_cons.mp hx with rfl | h
    · exact le_trans hs hself
    · rcases List.mem_cons.mp h with rfl | h
      · exact le_trans ha hself
      · exact ih _ x (List.mem_cons_of_mem _ h)

theorem pickBest_first (s : FixStrategy) (l : List FixStrategy) :
    (s :: l).find? (fun c => decide ((pickBest s l).confidence ≤ c.confidence))
      = some (pickBest s l) := by
  induction l generalizing s with
  | nil => simp [pickBest, List.find?]
  | cons a t ih =>
    rw [pickBest_cons]
    by_cases h : s.confidence < a.confidence
    · rw [if_pos h]
      have hle : a.confidence ≤ (pickBest a t).confidence :=
        pickBest_le a t a (List.mem_cons_self a t)
      have hs : ¬ ((pickBest a t).confidence ≤ s.confidence) :=
        not_le.mpr (lt_of_lt_of_le h hle)
      rw [List.find?_cons_of_neg _ (by simpa using hs)]
      exact ih a
    · rw [if_neg h]
      have hp := ih s
      by_cases hps : (pickBest s t).confidence ≤ s.confidence
      · rw [List.find?_cons_of_pos _ (by simpa using hps)] at hp
        have hss : pickBest s t = s := by
          have := Option.some.inj hp
          exact this.symm
        rw [hss]
        exact List.find?_cons_of_pos _ (by simp)
      · rw [List.find?_cons_of_neg _ (by simpa using hps)] at hp
        rw [List.find?_cons_of_neg _ (by simpa using hps)]
        have hsa : a.confidence ≤ s.confidence := le_of_not_lt h
        have hpa : ¬ ((pickBest s t).confidence ≤ a.confidence) := by
          intro hle
          exact hps (le_trans hle hsa)
        rw [List.find?_cons_of_neg _ (by simpa using hpa)]
        exact hp

theorem hasName_map_update (c : List (String × String)) (n y : String) :
    hasName (c.map (fun p => if p.1 = n then (n, y) else p)) n = hasName c n := by
  induction c with
  | nil => rfl
  | cons p t ih =>
    by_cases h : p.1 = n
    · simp [hasName, h, ih]
    · simp [hasName, h, ih]

theorem hasName_append_self (c : List (String × String)) (n y : String) :
    hasName (c ++ [(n, y)]) n = true := by
  induction c with
  | nil => simp [hasName]
  | cons p t ih => simp [hasName, ih]

theorem hasName_eq_false_forall (c : List (String × String)) (n : String)
    (h : hasName c n = false) : ∀ p ∈ c, p.1 ≠ n := by
  induction c with
  | nil => simp
  | cons q t ih =>
    simp only [hasName, Bool.or_eq_false_iff, decide_eq_false_iff_not] at h
    intro p hp
    rcases List.mem_cons.mp hp with rfl | hp
    · exact h.1
    · exact ih h.2 p hp

theorem applyService_idem (c : List (String × String)) (n y : String) :
    applyService (applyService c n y) n y = applyService c n y := by
  by_cases h : hasName c n = true
  · have hinner : applyService c n y = c.map (fun p => if p.1 = n then (n, y) else p) := by
      rw [applyService, if_pos h]
    rw [hinner, applyService, if_pos (by rw [hasName_map_update]; exact h), List.map_map]
    refine List.map_congr_left ?_
    intro p _
    by_cases hp : p.1 = n <;> simp [hp]
  · have hinner : applyService c n y = c ++ [(n, y)] := by
      rw [applyService, if_neg h]
    rw [hinner, applyService, if_pos (hasName_append_self c n y), List.map_append]
    have hc : c.map (fun p => if p.1 = n then (n, y) else p) = c := by
      conv_rhs => rw [← List.map_id c]
      refine List.map_congr_left ?_
      intro p hp
      rw [if_neg (hasName_eq_false_forall c n (Bool.not_eq_true _ ▸ eq_false_of_ne_true h) p hp)]
      rfl
    rw [hc]
    simp

theorem applyService_length (c : List (String × String)) (n y : String) :
    (applyService c n y).length = if hasName c n then c.length else c.length + 1 := by
  by_cases h : hasName c n = true
  · rw [applyService, if_pos h, if_pos h, List.length_map]
  · rw [applyService, if_neg h, if_neg h]
    simp

theorem pushAfterTag_eq (imageRef : String) (e : PushEnv) (pre : List PushStep)
    (hlen : 2 ≤ (splitChar '/' imageRef.data).length) :
    pushAfterTag imageRef e pre =
      if e.getLoginOk = false then
        (some (.error "failed to get ECR login password"), pre ++ [.getLoginPassword])
      else if e.loginOk = false then
        (some (.error "failed to login to ECR"), pre ++ [.getLoginPassword, .dockerLogin])
      else if e.repoExists = false then
        if e.createOk = false then
          (some (.error "failed to create ECR repository"),
            pre ++ [.getLoginPassword, .dockerLogin, .describeRepos, .createRepo])
        else if e.pushOk = false then
          (some (.error "failed to push image to ECR"),
            pre ++ [.getLoginPassword, .dockerLogin, .describeRepos, .createRepo, .dockerPush])
        else
          (some (.ok ()),
            pre ++ [.getLoginPassword, .dockerLogin, .describeRepos, .createRepo, .dockerPush])
      else if e.pushOk = false then
        (some (.error "failed to push image to ECR"),
          pre ++ [.getLoginPassword, .dockerLogin, .describeRepos, .dockerPush])
      else
        (some (.ok ()),
          pre ++ [.getLoginPassword, .dockerLogin, .describeRepos, .dockerPush]) := by
  unfold pushAfterTag
  rw [if_neg (by omega), List.getElem?_eq_getElem (by omega)]

theorem pushAfterTag_ne_invalid (imageRef : String) (e : PushEnv) (pre : List PushStep) :
    (pushAfterTag imageRef e pre).1 ≠ some (.error "invalid image") := by
  unfold pushAfterTag
  rw [if_neg (by have := splitChar_length_pos '/' imageRef.data; omega)]
  rcases h : (splitChar '/' imageRef.data)[1]? with _ | seg
  · simp
  · split_ifs <;> simp

/- ### Claim theorems -/

/-- C1 counterexample: with every step up to and including the Knative
service apply succeeding and the requested database attachment failing, the
deploy run terminates with a failure outcome and records no warning, so the
claim that it still ends in success with a recorded warning is false on the
code. -/
theorem deployRun_dbFail_is_failure :
    dbFailEnv.knApplyOk = true ∧
    dbFailEnv.dbHost ≠ "" ∧ dbFailEnv.dbAttachOk = false ∧
    (deployRun dbFailEnv).outcome = .error "database attach failed" ∧
    (deployRun dbFailEnv).warnings = [] := by
  refine ⟨rfl, by decide, rfl, ?_, ?_⟩ <;> rfl

/-- C1 (amended): after the primary service apply succeeds, a failing
database, Redis, or secrets attachment step aborts the deploy run with a
failure outcome; only the ECR pull-permission configuration step is
downgraded to a recorded warning while the run still succeeds. -/
theorem deployRun_attach_failure_aborts (e : DeployEnv)
    (h1 : e.projectNameOk = true) (h2 : e.imageRefOk = true)
    (h3 : e.buildOk = true) (h4 : e.pushOk = true) (h5 : e.knApplyOk = true) :
    ((e.dbHost ≠ "" ∧ e.dbAttachOk = false) →
      (deployRun e).outcome = .error "database attach failed") ∧
    ((e.dbHost = "" ∨ e.dbAttachOk = true) →
      (e.redisHost ≠ "" ∧ e.redisAttachOk = false) →
      (deployRun e).outcome = .error "redis attach failed") ∧
    ((e.dbHost = "" ∨ e.dbAttachOk = true) →
      (e.redisHost = "" ∨ e.redisAttachOk = true) →
      (e.secrets ≠ [] ∧ e.secretsOk = false) →
      (deployRun e).outcome = .error "secrets creation failed") ∧
    ((e.dbHost = "" ∨ e.dbAttachOk = true) →
      (e.redisHost = "" ∨ e.redisAttachOk = true) →
      (e.secrets = [] ∨ e.secretsOk = true) →
      e.ecrPermOk = false →
      (deployRun e).outcome = .ok () ∧
      (deployRun e).warnings = ["Warning: Failed to configure ECR pull permissions"]) := by
  refine ⟨?_, ?_, ?_, ?_⟩
  · rintro ⟨ha, hb⟩
    simp [deployRun, h1, h2, h3, h4, h5, ha, hb]
  · intro hdb
    rintro ⟨ha, hb⟩
    have hdb' : ¬ (e.dbHost ≠ "" ∧ e.dbAttachOk = false) := by
      rcases hdb with h | h <;> simp [h]
    simp [deployRun, h1, h2, h3, h4, h5, hdb', ha, hb]
  · intro hdb hrd
    rintro ⟨ha, hb⟩
    have hdb' : ¬ (e.dbHost ≠ "" ∧ e.dbAttachOk = false) := by
      rcases hdb with h | h <;> simp [h]
    have hrd' : ¬ (e.redisHost ≠ "" ∧ e.redisAttachOk = false) := by
      rcases hrd with h | h <;> simp [h]
    simp [deployRun, h1, h2, h3, h4, h5, hdb', hrd', ha, hb]
  · intro hdb hrd hsc hecr
    have hdb' : ¬ (e.dbHost ≠ "" ∧ e.dbAttachOk = false) := by
      rcases hdb with h | h <;> simp [h]
    have hrd' : ¬ (e.redisHost ≠ "" ∧ e.redisAttachOk = false) := by
      rcases hrd with h | h <;> simp [h]
    have hsc' : ¬ (e.secrets ≠ [] ∧ e.secretsOk = false) := by
      rcases hsc with h | h <;> simp [h]
    constructor <;> simp [deployRun, h1, h2, h3, h4, h5, hdb', hrd', hsc', hecr]

/-- C1 witness: the amended theorem instantiated at the concrete environment
whose database attachment fails after a successful service apply. -/
theorem deployRun_attach_failure_aborts_witness :
    (dbFailEnv.projectNameOk = true ∧ dbFailEnv.imageRefOk = true ∧
      dbFailEnv.buildOk = true ∧ dbFailEnv.pushOk = true ∧ dbFailEnv.knApplyOk = true) ∧
    (deployRun dbFailEnv).outcome = .error "database attach failed" :=
  ⟨⟨rfl, rfl, rfl, rfl, rfl⟩,
    (deployRun_attach_failure_aborts dbFailEnv rfl rfl rfl rfl rfl).1 ⟨by decide, rfl⟩⟩

/-- C9: the tracking report step never affects the deploy outcome: the run
result is identical whatever the report outcome would be, and the report is
not posted when no server endpoint is configured. -/
theorem deployRun_report_fire_and_forget (e : DeployEnv) (b : Bool) :
    deployRun { e with reportOk := b } = deployRun e ∧
    (e.serverURL = "" → (deployRun e).reported = false) := by
  refine ⟨rfl, ?_⟩
  intro h
  simp only [deployRun]
  split_ifs <;> simp [h]

/-- C9 witness: the report-independence theorem instantiated at the concrete
environment with no server endpoint configured. -/
theorem deployRun_report_fire_and_forget_witness :
    dbFailEnv.serverURL = "" ∧ (deployRun dbFailEnv).reported = false :=
  ⟨rfl, (deployRun_report_fire_and_forget dbFailEnv true).2 rfl⟩

/-- C2: whenever the pack CLI is missing or the pack build fails,
buildApplication ends with the fallback docker build whose generated
Dockerfile is selected by the language markers — package.json gives the Node
template, else requirements.txt the Python template, else go.mod the Go
template, else the placeholder — and a found, successful pack build performs
no docker attempt. -/
theorem buildApplication_fallback (e : BuildEnv) (dir : AppDir)
    (appPath imageRef : String) (envs : List String) :
    ((e.packFound = false ∨ e.packRunOk = false) →
      (buildApplication e dir appPath imageRef envs).2.getLast?
        = some (.dockerBuild (buildWithDocker dir appPath imageRef envs))) ∧
    (e.packFound = true →
      (buildApplication e dir appPath imageRef envs).2.head?
        = some (.packBuild "paketobuildpacks/builder:tiny")) ∧
    (e.packFound = true → e.packRunOk = true →
      (buildApplication e dir appPath imageRef envs).2
        = [.packBuild "paketobuildpacks/builder:tiny"]) ∧
    (dir.hasPackageJson = true →
      (buildWithDocker dir appPath imageRef envs).stdinData = nodeDockerfile) ∧
    (dir.hasPackageJson = false → dir.hasRequirementsTxt = true →
      (buildWithDocker dir appPath imageRef envs).stdinData = pythonDockerfile) ∧
    (dir.hasPackageJson = false → dir.hasRequirementsTxt = false → dir.hasGoMod = true →
      (buildWithDocker dir appPath imageRef envs).stdinData = goDockerfile) ∧
    (dir.hasPackageJson = false → dir.hasRequirementsTxt = false → dir.hasGoMod = false →
      (buildWithDocker dir appPath imageRef envs).stdinData = defaultDockerfile) := by
  refine ⟨?_, ?_, ?_, ?_, ?_, ?_, ?_⟩
  · rintro (h | h)
    · simp [buildApplication, h]
    · by_cases hp : e.packFound = false <;> simp [buildApplication, h, hp]
  · intro h
    have h' : ¬ (e.packFound = false) := by simp [h]
    by_cases hr : e.packRunOk <;> simp [buildApplication, h', hr]
  · intro h hr
    have h' : ¬ (e.packFound = false) := by simp [h]
    simp [buildApplication, h', hr]
  · intro h
    simp [buildWithDocker, createDockerfile, h]
  · intro h1 h2
    simp [buildWithDocker, createDockerfile, h1, h2]
  · intro h1 h2 h3
    simp [buildWithDocker, createDockerfile, h1, h2, h3]
  · intro h1 h2 h3
    simp [buildWithDocker, createDockerfile, h1, h2, h3]

/-- C2 witness: the fallback theorem instantiated with a missing pack CLI and
a Node application directory. -/
theorem buildApplication_fallback_witness :
    (packMissingEnv.packFound = false ∨ packMissingEnv.packRunOk = false) ∧
    nodeAppDir.hasPackageJson = true ∧
    (buildApplication packMissingEnv nodeAppDir "." "myapp:latest" []).2.getLast?
      = some (.dockerBuild (buildWithDocker nodeAppDir "." "myapp:latest" [])) ∧
    (buildWithDocker nodeAppDir "." "myapp:latest" []).stdinData = nodeDockerfile :=
  ⟨Or.inl rfl, rfl,
    (buildApplication_fallback packMissingEnv nodeAppDir "." "myapp:latest" []).1 (Or.inl rfl),
    (buildApplication_fallback packMissingEnv nodeAppDir "." "myapp:latest" []).2.2.2.1 rfl⟩

/-- C8: the fallback docker build always passes the fixed target platform
linux/amd64 to the image build, for every application directory, path, image
reference and environment list. -/
theorem buildWithDocker_fixed_platform (dir : AppDir) (appPath imageRef : String)
    (envs : List String) :
    (buildWithDocker dir appPath imageRef envs).prog = "docker" ∧
    platformArg (buildWithDocker dir appPath imageRef envs).args = some "linux/amd64" :=
  ⟨rfl, rfl⟩

/-- C4: the fix selector returns no fix for a nil input error and for an
error whose candidate-strategy list is empty, without this being an error
condition. -/
theorem selectBestFix_nil_none :
    selectBestFix none = none ∧
    ∀ err : DeploymentError, err.suggestions = [] → selectBestFix (some err) = none := by
  refine ⟨rfl, ?_⟩
  intro err h
  simp [selectBestFix, h]

/-- C4 witness: the theorem instantiated at the concrete error with an empty
candidate list. -/
theorem selectBestFix_nil_none_witness :
    emptyError.suggestions = [] ∧ selectBestFix (some emptyError) = none :=
  ⟨rfl, selectBestFix_nil_none.2 emptyError rfl⟩

/-- C5: for every error with a non-empty candidate list the fix selector
returns exactly the first candidate of maximal confidence — the result is a
candidate, no candidate has strictly higher confidence, and the first
candidate whose confidence reaches the result is the result itself (ties
broken by registration order); on the concrete confidences 0.3, 0.9, 0.6 it
returns the 0.9 strategy. -/
theorem selectBestFix_max :
    (∀ err : DeploymentError, err.suggestions ≠ [] →
      ∃ s, selectBestFix (some err) = some s ∧ s ∈ err.suggestions ∧
        (∀ c ∈ err.suggestions, c.confidence ≤ s.confidence) ∧
        err.suggestions.find? (fun c => decide (s.confidence ≤ c.confidence)) = some s) ∧
    selectBestFix (some demoError) = some ⟨"best_fix", "top of the ranking", 0.9, []⟩ := by
  constructor
  · intro err h
    rcases herr : err.suggestions with _ | ⟨a, t⟩
    · exact absurd herr h
    · refine ⟨pickBest a t, ?_, ?_, ?_, ?_⟩
      · simp [selectBestFix, herr]
      · exact pickBest_mem a t
      · exact pickBest_le a t
      · exact pickBest_first a t
  · have hpick : pickBest ⟨"low_fix", "third of the ranking", 0.3, []⟩
        [⟨"best_fix", "top of the ranking", 0.9, []⟩,
          ⟨"mid_fix", "second of the ranking", 0.6, []⟩]
        = ⟨"best_fix", "top of the ranking", 0.9, []⟩ := by
      rw [pickBest_cons, if_pos (by norm_num), pickBest_cons, if_neg (by norm_num)]
      rfl
    have hunfold : selectBestFix (some demoError)
        = some (pickBest ⟨"low_fix", "third of the ranking", 0.3, []⟩
            [⟨"best_fix", "top of the ranking", 0.9, []⟩,
              ⟨"mid_fix", "second of the ranking", 0.6, []⟩]) := rfl
    rw [hunfold, hpick]

/-- C5 witness: the ranking theorem instantiated at the concrete candidate
list with confidences 0.3, 0.9 and 0.6. -/
theorem selectBestFix_max_witness :
    demoError.suggestions ≠ [] ∧
    (∃ s, selectBestFix (some demoError) = some s ∧ s ∈ demoError.suggestions ∧
      (∀ c ∈ demoError.suggestions, c.confidence ≤ s.confidence) ∧
      demoError.suggestions.find? (fun c => decide (s.confidence ≤ c.confidence)) = some s) :=
  ⟨by simp [demoError, demoStrategies],
    selectBestFix_max.1 demoError (by simp [demoError, demoStrategies])⟩

/-- C6: detectError lowercase-normalizes a log line and returns the first
matching registered pattern in priority order: each contracted trigger line
is tagged with exactly its category, also when written in upper case, and
benign lines yield no match. -/
theorem detectError_contract :
    ((detectError "ERROR: failed to build: failed to fetch base layers").map
      (fun e => e.pattern.name) = some "buildpack_failure") ∧
    ((detectError "authentication failed: unauthorized").map
      (fun e => e.pattern.name) = some "ecr_auth_failed") ∧
    ((detectError "repository not found: no such repository").map
      (fun e => e.pattern.name) = some "repository_not_found") ∧
    ((detectError "revision missing: revision not found").map
      (fun e => e.pattern.name) = some "revision_missing") ∧
    ((detectError "imagepullbackoff: failed to pull image").map
      (fun e => e.pattern.name) = some "image_pull_backoff") ∧
    ((detectError "could not resolve host: dns failed").map
      (fun e => e.pattern.name) = some "dns_resolution_failed") ∧
    ((detectError "permission denied: access denied").map
      (fun e => e.pattern.name) = some "permission_denied") ∧
    ((detectError "loadbalancer pending: external pending").map
      (fun e => e.pattern.name) = some "loadbalancer_pending") ∧
    ((detectError "AUTHENTICATION FAILED: UNAUTHORIZED").map
      (fun e => e.pattern.name) = some "ecr_auth_failed") ∧
    ((detectError "Building application successfully").isNone = true) ∧
    ((detectError "Deploy completed without errors").isNone = true) ∧
    ((detectError "All checks passed").isNone = true) ∧
    ((detectError "Service is running normally").isNone = true) ∧
    ((detectError "build successful").isNone = true) := by
  decide

/-- C7: every rendered Knative service manifest contains the minScale
annotation pinning at least one warm instance, and the modelled apply is
idempotent: re-applying the same descriptor leaves the cluster unchanged,
and an existing service of the same name is updated in place rather than
duplicated. -/
theorem newKnServiceYAML_minScale_idempotent :
    (∀ (name image ns cpu mem : String) (env : List (String × String)) (port : Nat),
      strContains (newKnServiceYAML name image ns cpu mem env port)
        "autoscaling.knative.dev/minScale: \"1\"" = true) ∧
    (∀ (c : List (String × String)) (name image ns cpu mem : String)
        (env : List (String × String)) (kctx : String) (port : Nat),
      knServiceApply (knServiceApply c name image ns cpu mem env kctx port)
          name image ns cpu mem env kctx port
        = knServiceApply c name image ns cpu mem env kctx port ∧
      (knServiceApply c name image ns cpu mem env kctx port).length
        = if hasName c name then c.length else c.length + 1) := by
  constructor
  · intro name image ns cpu mem env port
    show containsSeg _ _ = true
    simp only [newKnServiceYAML, strContains, String.data_append, List.append_assoc]
    apply containsSeg_append_right
    apply containsSeg_append_right
    apply containsSeg_append_right
    apply containsSeg_append_right
    apply containsSeg_append_left
    decide
  · intro c name image ns cpu mem env kctx port
    exact ⟨applyService_idem c name _, applyService_length c name _⟩

/-- C3: for an ECR-form image reference the push stage runs identity
resolution, credential retrieval, docker login, repository check (creating
the repository when the check fails, before any push) and push strictly in
this order, and a failing step aborts the stage immediately with an error, so
later steps — the docker push in particular — are never executed. -/
theorem dockerPushWithECRLogin_order (region imageRef : String) (e : PushEnv)
    (hecr : strContains imageRef ".dkr.ecr." = true)
    (hslash : strContains imageRef "/" = true) :
    (e.stsOk = false →
      dockerPushWithECRLogin region imageRef e
        = (some (.error "failed to get AWS account ID for ECR push"), [.sts])) ∧
    (e.stsOk = true → e.accountID ≠ "" → e.getLoginOk = false →
      dockerPushWithECRLogin region imageRef e
        = (some (.error "failed to get ECR login password"), [.sts, .getLoginPassword])) ∧
    (e.stsOk = true → e.accountID ≠ "" → e.getLoginOk = true → e.loginOk = false →
      dockerPushWithECRLogin region imageRef e
        = (some (.error "failed to login to ECR"),
            [.sts, .getLoginPassword, .dockerLogin])) ∧
    (e.stsOk = true → e.accountID ≠ "" → e.getLoginOk = true → e.loginOk = true →
      e.repoExists = false → e.createOk = false →
      dockerPushWithECRLogin region imageRef e
        = (some (.error "failed to create ECR repository"),
            [.sts, .getLoginPassword, .dockerLogin, .describeRepos, .createRepo])) ∧
    (e.stsOk = true → e.accountID ≠ "" → e.getLoginOk = true → e.loginOk = true →
      e.repoExists = false → e.createOk = true →
      dockerPushWithECRLogin region imageRef e
        = ((if e.pushOk then some (.ok ()) else some (.error "failed to push image to ECR")),
            [.sts, .getLoginPassword, .dockerLogin, .describeRepos, .createRepo,
              .dockerPush])) ∧
    (e.stsOk = true → e.accountID ≠ "" → e.getLoginOk = true → e.loginOk = true →
      e.repoExists = true →
      dockerPushWithECRLogin region imageRef e
        = ((if e.pushOk then some (.ok ()) else some (.error "failed to push image to ECR")),
            [.sts, .getLoginPassword, .dockerLogin, .describeRepos, .dockerPush])) ∧
    (PushStep.dockerPush ∈ (dockerPushWithECRLogin region imageRef e).2 →
      e.getLoginOk = true ∧ e.loginOk = true) := by
  have hlen : 2 ≤ (splitChar '/' imageRef.data).length :=
    length_splitChar_of_contains '/' imageRef.data hslash
  have hroute : e.stsOk = true → e.accountID ≠ "" →
      dockerPushWithECRLogin region imageRef e = pushAfterTag imageRef e [.sts] := by
    intro hsts hacc
    unfold dockerPushWithECRLogin
    rw [if_neg (by simp [hsts]), if_neg hacc, if_neg (by simp [hecr])]
  refine ⟨?_, ?_, ?_, ?_, ?_, ?_, ?_⟩
  · intro h
    unfold dockerPushWithECRLogin
    rw [if_pos h]
  · intro hsts hacc hgl
    rw [hroute hsts hacc, pushAfterTag_eq imageRef e _ hlen, if_pos hgl]
    rfl
  · intro hsts hacc hgl hlog
    rw [hroute hsts hacc, pushAfterTag_eq imageRef e _ hlen,
      if_neg (by simp [hgl]), if_pos hlog]
    rfl
  · intro hsts hacc hgl hlog hre hcr
    rw [hroute hsts hacc, pushAfterTag_eq imageRef e _ hlen,
      if_neg (by simp [hgl]), if_neg (by simp [hlog]), if_pos hre, if_pos hcr]
    rfl
  · intro hsts hacc hgl hlog hre hcr
    rw [hroute hsts hacc, pushAfterTag_eq imageRef e _ hlen,
      if_neg (by simp [hgl]), if_neg (by simp [hlog]), if_pos hre,
      if_neg (by simp [hcr])]
    cases hp : e.pushOk <;> simp [hp]
  · intro hsts hacc hgl hlog hre
    rw [hroute hsts hacc, pushAfterTag_eq imageRef e _ hlen,
      if_neg (by simp [hgl]), if_neg (by simp [hlog]), if_neg (by simp [hre])]
    cases hp : e.pushOk <;> simp [hp]
  · intro hmem
    cases hsts : e.stsOk with
    | false =>
      unfold dockerPushWithECRLogin at hmem
      rw [if_pos hsts] at hmem
      simp at hmem
    | true =>
      by_cases hacc : e.accountID = ""
      · unfold dockerPushWithECRLogin at hmem
        rw [if_neg (by simp [hsts]), if_pos hacc] at hmem
        simp at hmem
      · rw [hroute hsts hacc, pushAfterTag_eq imageRef e _ hlen] at hmem
        cases hgl : e.getLoginOk with
        | false =>
          rw [if_pos hgl] at hmem
          simp at hmem
        | true =>
          cases hlog : e.loginOk with
          | false =>
            rw [if_neg (by simp [hgl]), if_pos hlog] at hmem
            simp at hmem
          | true => exact ⟨rfl, rfl⟩

/-- C3 witness: the ordering theorem instantiated at a concrete ECR image
reference and an environment whose credential retrieval fails: the stage
aborts right after the failed retrieval. -/
theorem dockerPushWithECRLogin_order_witness :
    strContains "123456789012.dkr.ecr.us-east-1.amazonaws.com/myapp:latest"
      ".dkr.ecr." = true ∧
    strContains "123456789012.dkr.ecr.us-east-1.amazonaws.com/myapp:latest" "/" = true ∧
    pushNoLogin.getLoginOk = false ∧
    dockerPushWithECRLogin "us-east-1"
        "123456789012.dkr.ecr.us-east-1.amazonaws.com/myapp:latest" pushNoLogin
      = (some (.error "failed to get ECR login password"), [.sts, .getLoginPassword]) :=
  ⟨by decide, by decide, rfl,
    (dockerPushWithECRLogin_order "us-east-1"
        "123456789012.dkr.ecr.us-east-1.amazonaws.com/myapp:latest" pushNoLogin
        (by decide) (by decide)).2.1 rfl (by decide) rfl⟩

/-- C10: the push stage is not total: an image reference that already carries
the ECR marker but no path separator drives the repository-name extraction to
index a one-piece split out of range — the Go code panics, modelled as a none
outcome — while the guard demanding at least one split piece can never fire,
because a split always has at least one piece, so its error branch is
unreachable. -/
theorem dockerPushWithECRLogin_panics :
    strContains "123456789012.dkr.ecr.us-east-1.amazonaws.com" ".dkr.ecr." = true ∧
    strContains "123456789012.dkr.ecr.us-east-1.amazonaws.com" "/" = false ∧
    (dockerPushWithECRLogin "us-east-1" "123456789012.dkr.ecr.us-east-1.amazonaws.com"
      pushAllOk).1 = none ∧
    (∀ (sep : Char) (l : List Char), 1 ≤ (splitChar sep l).length) ∧
    (∀ (region imageRef : String) (e : PushEnv),
      (dockerPushWithECRLogin region imageRef e).1 ≠ some (.error "invalid image")) := by
  refine ⟨by decide, by decide, by decide, ?_, ?_⟩
  · intro sep l
    exact splitChar_length_pos sep l
  · intro region imageRef e
    simp only [dockerPushWithECRLogin]
    split_ifs
    · simp
    · simp
    · simp
    · exact pushAfterTag_ne_invalid _ _ _
    · exact pushAfterTag_ne_invalid _ _ _
